import Mathlib

/-!
Verification of the request transport layer of the cgate-sdk client library
(HttpClient in src/http.ts, CGateClient construction in src/client.ts).

JavaScript strings are embedded as lists of characters (`Str`), JSON values as
the inductive `Json`, and the runtime primitives at the boundary (fetch,
JSON.parse, JSON.stringify) as explicit parameters: one fetch outcome per
attempt index, and abstract parse/stringify functions.  The retry loop,
error-response handling, URL building and SSE stream decoding are translated
from the source; spec-side descriptions used for comparison are clearly marked.
-/

namespace CGate

/-- Embedding of JavaScript strings as lists of characters. -/
abbrev Str := List Char

/-- Conversion from a Lean string literal to the character-list embedding. -/
def jsStr (s : String) : Str := s.data

/-- Embedding of JSON values (JSON.parse results).  Numbers are modelled as
integers; the claims under study never involve fractional numbers. -/
inductive Json where
  | null : Json
  | bool (b : Bool) : Json
  | num (n : Int) : Json
  | str (s : String) : Json
  | arr (elems : List Json) : Json
  | obj (fields : List (String × Json)) : Json

/-- JavaScript truthiness of a JSON value: null, false, 0 and the empty
string are falsy; every array and object is truthy. -/
def jsTruthy : Json → Bool
  | .null => false
  | .bool b => b
  | .num n => n != 0
  | .str s => s != ""
  | .arr _ => true
  | .obj _ => true

/-- JavaScript test for typeof x being object with x not null: true exactly
for objects and arrays in the parsed-JSON world (Json.null models the JS
value null, which the source excludes explicitly). -/
def isObjectType : Json → Bool
  | .obj _ => true
  | .arr _ => true
  | _ => false

/-- Property access on a parsed JSON value: on an object, the value of the
named field (none when absent, modelling undefined); on anything else,
none. -/
def getField : Json → String → Option Json
  | .obj fields, key => lookupField fields key
  | _, _ => none
where
  /-- First binding of the key in the field list. -/
  lookupField : List (String × Json) → String → Option Json
  | [], _ => none
  | (k, v) :: rest, key => if k == key then some v else lookupField rest key

/-- Decimal digits of a natural number, most significant first (fuel-based
structural recursion so that closed instances reduce). -/
def natDigits (fuel n : Nat) : List Char :=
  match fuel with
  | 0 => []
  | fuel + 1 =>
    if n < 10 then [Char.ofNat (48 + n)]
    else natDigits fuel (n / 10) ++ [Char.ofNat (48 + n % 10)]

/-- Decimal rendering of a natural number, as used when the source
interpolates a status code into a message string. -/
def natToStr (n : Nat) : String := String.mk (natDigits (n + 1) n)

/-- Error objects thrown inside the request loop: either a CGateAPIError
built by handleErrorResponse, or a plain runtime error identified by its
name field (DOMException AbortError, TypeError from a network failure,
SyntaxError from JSON body parsing, and so on). -/
inductive JsError where
  | api (message : Json) (status : Nat) (errorType : Option Json) (response : Option Json) : JsError
  | js (name : String) (message : String) : JsError

/-- Embedding of the instanceof CGateAPIError test from the catch clause. -/
def JsError.isAPIError : JsError → Bool
  | .api _ _ _ _ => true
  | .js _ _ => false

/-- Embedding of the error.name field read by the catch clause; a
CGateAPIError instance carries the name CGateAPIError. -/
def JsError.errorName : JsError → String
  | .api _ _ _ _ => "CGateAPIError"
  | .js n _ => n

/-- Status line and body of a settled HTTP response, as observed by the
source: ok flag, numeric status, status text, and the result of
response.json() (none models a rejected body parse). -/
structure JsResponse where
  ok : Bool
  status : Nat
  statusText : String
  jsonBody : Option Json

/-- Outcome of one invocation of the fetch primitive: the returned promise
either resolves with a response or rejects with an error (network failure,
abort, ...). -/
inductive FetchOutcome where
  | resolve (r : JsResponse) : FetchOutcome
  | reject (e : JsError) : FetchOutcome

/-- Generic message HTTP status: statusText used by handleErrorResponse
before and after a failed body inspection. -/
def genericMessage (status : Nat) (statusText : String) : String :=
  "HTTP " ++ natToStr status ++ ": " ++ statusText

/-- Translation of HttpClient.handleErrorResponse: derive the CGateAPIError
raised for a non-2xx response from the status, the status text and the
parsed body (none when response.json() rejected).  A string error field is
used verbatim; a truthy object error field contributes its message field
when that field is truthy, and its type field; otherwise the generic
message is used.  The raw parsed body is carried when parsing succeeded. -/
def handleErrorResponse (status : Nat) (statusText : String) (body : Option Json) : JsError :=
  let generic : Json := .str (genericMessage status statusText)
  match body with
  | none => .api generic status none none
  | some data =>
    if isObjectType data then
      match getField data "error" with
      | some (.str s) => .api (.str s) status none (some data)
      | some e =>
        if jsTruthy e && isObjectType e then
          let msg := match getField e "message" with
            | some m => if jsTruthy m then m else generic
            | none => generic
          .api msg status (getField e "type") (some data)
        else .api generic status none (some data)
      | none => .api generic status none (some data)
    else .api generic status none (some data)

/-- Result of one iteration of the try block in HttpClient.request: the
attempt either produces the parsed JSON body or an error, and the internal
timeout timer is cleared exactly when the fetch promise resolves (the
clearTimeout call is skipped when fetch rejects, because it sits after the
await with no finally block). -/
structure AttemptResult where
  result : Except JsError Json
  timerCleared : Bool

/-- One attempt of HttpClient.request: await fetch, clear the timer, raise
via handleErrorResponse on a non-ok response, otherwise await
response.json() (whose rejection surfaces as a SyntaxError). -/
def runAttempt (f : FetchOutcome) : AttemptResult :=
  match f with
  | .reject e => ⟨.error e, false⟩
  | .resolve r =>
    if r.ok then
      match r.jsonBody with
      | some j => ⟨.ok j, true⟩
      | none => ⟨.error (.js "SyntaxError" "Unexpected end of JSON input"), true⟩
    else ⟨.error (handleErrorResponse r.status r.statusText r.jsonBody), true⟩

/-- Observable trace of a whole HttpClient.request call: final outcome,
number of attempts issued, backoff sleeps in milliseconds in order, and the
per-attempt timer-cleared flags. -/
structure RequestTrace where
  result : Except JsError Json
  attempts : Nat
  sleeps : List Nat
  timerCleared : List Bool

/-- Retry loop of HttpClient.request, unrolled from attempt index
attempt with remaining further attempts allowed (the source iterates
attempt from 0 to maxRetries inclusive; remaining = maxRetries - attempt).
A caught error is rethrown at once when it is a CGateAPIError, when its
name is AbortError, or when the attempt index equals maxRetries; otherwise
the loop sleeps 2 ^ attempt * 1000 milliseconds and retries.  The source
tests the three rethrow conditions as one disjunction; with remaining = 0
that disjunction is always true, so the last attempt rethrows any error
unconditionally, which the first arm states directly. -/
def requestAux (fetchO : Nat → FetchOutcome) : Nat → Nat → RequestTrace
  | attempt, 0 =>
    let a := runAttempt (fetchO attempt)
    match a.result with
    | .ok j => ⟨.ok j, 1, [], [a.timerCleared]⟩
    | .error e => ⟨.error e, 1, [], [a.timerCleared]⟩
  | attempt, r + 1 =>
    let a := runAttempt (fetchO attempt)
    match a.result with
    | .ok j => ⟨.ok j, 1, [], [a.timerCleared]⟩
    | .error e =>
      if e.isAPIError || e.errorName == "AbortError" then
        ⟨.error e, 1, [], [a.timerCleared]⟩
      else
        let rest := requestAux fetchO (attempt + 1) r
        ⟨rest.result, rest.attempts + 1, 2 ^ attempt * 1000 :: rest.sleeps,
          a.timerCleared :: rest.timerCleared⟩

/-- Translation of HttpClient.request for a given maxRetries and a fetch
primitive described by its outcome at each attempt index. -/
def request (maxRetries : Nat) (fetchO : Nat → FetchOutcome) : RequestTrace :=
  requestAux fetchO 0 maxRetries

/-- Request body handed to the fetch primitive by HttpClient.request and
HttpClient.stream: the conditional expression body ? JSON.stringify(body) :
undefined, with JSON.stringify abstracted as a parameter (it is a runtime
primitive, not repository code).  A falsy body value (false, 0, empty
string, null) takes the undefined branch. -/
def sentBody (stringify : Json → String) (body : Option Json) : Option String :=
  match body with
  | some j => if jsTruthy j then some (stringify j) else none
  | none => none

/-- Configuration object accepted by the CGateClient constructor; the fetch
implementation option is not needed by the claims.  none models an absent
(undefined) optional field. -/
structure ClientOptions where
  apiKey : String
  baseURL : Option String
  timeout : Option Int
  maxRetries : Option Int

/-- Default timeout constant from client.ts (milliseconds). -/
def DEFAULT_TIMEOUT : Int := 60000

/-- Default retry-count constant from client.ts. -/
def DEFAULT_MAX_RETRIES : Int := 3

/-- Effective timeout chosen by the constructor: options.timeout ||
DEFAULT_TIMEOUT, so an absent timeout or the falsy value 0 yields the
default. -/
def effectiveTimeout (o : ClientOptions) : Int :=
  match o.timeout with
  | none => DEFAULT_TIMEOUT
  | some t => if t == 0 then DEFAULT_TIMEOUT else t

/-- Effective retry count chosen by the constructor: options.maxRetries ??
DEFAULT_MAX_RETRIES, so only an absent (undefined or null) value yields the
default and an explicit 0 is kept. -/
def effectiveMaxRetries (o : ClientOptions) : Int :=
  match o.maxRetries with
  | none => DEFAULT_MAX_RETRIES
  | some m => m

/-- Split of a character list at every occurrence of a separator character,
mirroring the JavaScript string split method: the result is never empty,
separators at the ends produce empty pieces, and the input is the
intercalation of the pieces with the separator. -/
def splitOnChar (sep : Char) : Str → List Str
  | [] => [[]]
  | c :: cs =>
    if c = sep then [] :: splitOnChar sep cs
    else
      match splitOnChar sep cs with
      | [] => [[c]]
      | h :: t => (c :: h) :: t

/-- Uppercase hexadecimal digit for a value below 16. -/
def hexDigitChar (n : Nat) : Char :=
  if n < 10 then Char.ofNat (48 + n) else Char.ofNat (55 + n)

/-- UTF-8 bytes of a character, for percent-encoding. -/
def utf8Bytes (c : Char) : List Nat :=
  let n := c.toNat
  if n < 0x80 then [n]
  else if n < 0x800 then [0xC0 + n / 0x40, 0x80 + n % 0x40]
  else if n < 0x10000 then [0xE0 + n / 0x1000, 0x80 + n / 0x40 % 0x40, 0x80 + n % 0x40]
  else [0xF0 + n / 0x40000, 0x80 + n / 0x1000 % 0x40, 0x80 + n / 0x40 % 0x40, 0x80 + n % 0x40]

/-- Characters serialized verbatim by the URLSearchParams
application/x-www-form-urlencoded serializer. -/
def formUnreserved (c : Char) : Bool :=
  (('a' ≤ c && c ≤ 'z') || ('A' ≤ c && c ≤ 'Z') || ('0' ≤ c && c ≤ '9')
    || c = '*' || c = '-' || c = '.' || c = '_')

/-- Form-urlencoded serialization of one character: unreserved characters
kept, space becomes a plus sign, everything else is percent-encoded
byte by byte. -/
def formEncodeChar (c : Char) : Str :=
  if formUnreserved c then [c]
  else if c = ' ' then ['+']
  else (utf8Bytes c).flatMap (fun b => ['%', hexDigitChar (b / 16), hexDigitChar (b % 16)])

/-- Form-urlencoded serialization of a whole key or value. -/
def formEncode (s : Str) : Str := s.flatMap formEncodeChar

/-- Structural view of a WHATWG URL as needed by buildURL: the serialized
scheme-and-host part, the path segments, and the query pairs.  The model
is restricted to http(s) URLs without userinfo, port, query or fragment in
the base, which covers every base URL the client accepts in practice. -/
structure URLM where
  schemeHost : Str
  segments : List Str
  query : List (Str × Str)

/-- Splitting of a URL string right after the scheme separator, returning
the prefix (scheme and the three separator characters) and the rest. -/
def splitScheme : Str → Option (Str × Str)
  | ':' :: '/' :: '/' :: rest => some (([':', '/', '/'] : Str), rest)
  | c :: cs => (splitScheme cs).map (fun p => (c :: p.1, p.2))
  | [] => none

/-- Parse of a base URL string into the structural view: host up to the
first slash, then path segments. -/
def parseBaseURL (s : Str) : Option URLM :=
  (splitScheme s).map (fun p =>
    let parts := splitOnChar '/' p.2
    { schemeHost := p.1 ++ parts.headD [], segments := parts.tail, query := [] })

/-- WHATWG serializer for the structural view: scheme and host, a slash,
the path segments joined by slashes, then the serialized query pairs when
any are present. -/
def urlToString (u : URLM) : Str :=
  let path := '/' :: List.intercalate ['/'] u.segments
  let qs : Str := match u.query with
    | [] => []
    | ps => '?' :: List.intercalate ['&'] (ps.map (fun kv => formEncode kv.1 ++ '=' :: formEncode kv.2))
  u.schemeHost ++ path ++ qs

/-- Translation of HttpClient.buildURL: strip one leading slash from the
path, resolve it against the base URL with the WHATWG URL constructor
(a relative reference replaces the base path's last segment, since the
constructor stripped any trailing slash from the base), append each query
pair whose value is defined, and serialize.  Query values are modelled
after the String(value) conversion the source applies.  none is returned
only for a base URL without a scheme, which the constructor would have
rejected. -/
def buildURL (baseURL path : Str) (query : List (Str × Option Str)) : Option Str :=
  (parseBaseURL baseURL).map (fun base =>
    let rel : Str := match path with
      | '/' :: rest => rest
      | _ => path
    let segs : List Str := match rel with
      | '/' :: rest => splitOnChar '/' rest
      | _ => base.segments.dropLast ++ splitOnChar '/' rel
    let params := query.filterMap (fun kv => kv.2.map (fun v => (kv.1, v)))
    urlToString { base with segments := segs, query := params })

/-- Modelled from the spec: the final URL is the configured base URL joined
with the path (one leading slash stripped from the path, a single slash at
the join point), followed by the defined query parameters URL-encoded.
This is the spec-side description that buildURL is compared against. -/
def specJoinURL (baseURL path : Str) (query : List (Str × Option Str)) : Str :=
  let rel : Str := match path with
    | '/' :: rest => rest
    | _ => path
  let params := query.filterMap (fun kv => kv.2.map (fun v => (kv.1, v)))
  let qs : Str := match params with
    | [] => []
    | ps => '?' :: List.intercalate ['&'] (ps.map (fun kv => formEncode kv.1 ++ '=' :: formEncode kv.2))
  baseURL ++ '/' :: rel ++ qs

/-- Whitespace predicate backing the JavaScript string trim method (the
characters that can occur in an SSE line in practice). -/
def jsWhitespace (c : Char) : Bool :=
  c == ' ' || c == '\t' || c == '\n' || c == '\r' || c == '\x0b' || c == '\x0c'

/-- Embedding of the JavaScript trim method: whitespace removed from both
ends. -/
def trimStr (s : Str) : Str :=
  ((s.dropWhile jsWhitespace).reverse.dropWhile jsWhitespace).reverse

/-- Literal data-colon-space marker each SSE data line starts with. -/
def sseDataTag : Str := jsStr "data: "

/-- Literal sentinel payload ending an SSE stream. -/
def sseDoneLit : Str := jsStr "[DONE]"

/-- Action the stream loop takes for one complete line. -/
inductive LineStep (J : Type) where
  | yield (j : J) : LineStep J
  | skip : LineStep J
  | done : LineStep J

/-- Per-line body of the stream loop: trim the line; when it starts with
the data marker take the rest, terminate on the sentinel, otherwise yield
the parse result when parsing succeeds and skip the line when it fails;
lines without the marker are skipped. -/
def processLine {J : Type} (parse : Str → Option J) (line : Str) : LineStep J :=
  let trimmed := trimStr line
  if sseDataTag.isPrefixOf trimmed then
    let data := trimmed.drop 6
    if data == sseDoneLit then .done
    else match parse data with
      | some j => .yield j
      | none => .skip
  else .skip

/-- Processing of a batch of complete lines: yields accumulate in order and
the batch reports whether the sentinel was reached (in which case no later
line of the batch is looked at). -/
def processLines {J : Type} (parse : Str → Option J) : List Str → List J × Bool
  | [] => ([], false)
  | l :: ls =>
    match processLine parse l with
    | .done => ([], true)
    | .yield j =>
      let r := processLines parse ls
      (j :: r.1, r.2)
    | .skip => processLines parse ls

/-- Observable trace of the stream-decoding loop: values yielded in order,
whether the sentinel terminated the loop, and how many chunk reads the
loop consumed. -/
structure StreamTrace (J : Type) where
  yields : List J
  sawDone : Bool
  reads : Nat

/-- Chunked decoding loop of HttpClient.stream over already-decoded text
chunks: each read appends to the buffer, the buffer splits on newlines,
the last piece is retained as the new buffer, the complete lines are
processed, and the sentinel returns from the generator so that no further
read happens. -/
def streamAux {J : Type} (parse : Str → Option J) : List Str → Str → StreamTrace J
  | [], _ => ⟨[], false, 0⟩
  | c :: rest, buffer =>
    let lines := splitOnChar '\n' (buffer ++ c)
    let r := processLines parse lines.dropLast
    if r.2 then ⟨r.1, true, 1⟩
    else
      let rest2 := streamAux parse rest (lines.getLastD [])
      ⟨r.1 ++ rest2.yields, rest2.sawDone, rest2.reads + 1⟩

/-- Translation of the body-decoding part of HttpClient.stream, starting
from the empty buffer; the chunks are the successive results of reading
the response body, already decoded to text (the URL, header, body and
error-response handling before the loop are shared with request).  The
JSON.parse primitive is a parameter. -/
def stream {J : Type} (parse : Str → Option J) (chunks : List Str) : StreamTrace J :=
  streamAux parse chunks []

/-- Payload of an SSE data line, when the trimmed line carries the data
marker. -/
def ssePayload (line : Str) : Option Str :=
  let t := trimStr line
  if sseDataTag.isPrefixOf t then some (t.drop 6) else none

/-- Complete lines of a text: the pieces of the newline split except the
trailing fragment after the last newline. -/
def completeLines (s : Str) : List Str := (splitOnChar '\n' s).dropLast

/-- Modelled from the spec: the yielded values are the successful parses,
in order, of the data payloads of the complete trimmed lines of the whole
body text, up to but not including the first sentinel payload. -/
def specStreamYields {J : Type} (parse : Str → Option J) (chunks : List Str) : List J :=
  (((completeLines chunks.flatten).filterMap ssePayload).takeWhile
    (fun p => p != sseDoneLit)).filterMap parse

/-- Message carried by an error when it is a CGateAPIError. -/
def JsError.apiMessage : JsError → Option Json
  | .api m _ _ _ => some m
  | .js _ _ => none

/-- Backoff sleeps, in milliseconds, produced by r consecutive retried
failures starting at attempt index a. -/
def backoffs (a r : Nat) : List Nat :=
  (List.range r).map (fun i => 2 ^ (a + i) * 1000)

theorem handleErrorResponse_isAPIError (status : Nat) (statusText : String)
    (body : Option Json) :
    (handleErrorResponse status statusText body).isAPIError = true := by
  unfold handleErrorResponse
  cases body with
  | none => rfl
  | some data =>
    dsimp only
    split
    · split
      · rfl
      · split
        · rfl
        · rfl
      · rfl
    · rfl

theorem backoffs_succ (a r : Nat) :
    backoffs a (r + 1) = 2 ^ a * 1000 :: backoffs (a + 1) r := by
  unfold backoffs
  rw [List.range_succ_eq_map, List.map_cons, List.map_map]
  simp only [Nat.add_zero]
  refine congrArg (2 ^ a * 1000 :: ·) (List.map_congr_left ?_)
  intro i _
  simp only [Function.comp_apply]
  rw [Nat.add_succ, Nat.succ_add]

theorem requestAux_reject_retryable (errs : Nat → JsError)
    (hapi : ∀ i, (errs i).isAPIError = false)
    (hname : ∀ i, ((errs i).errorName == "AbortError") = false) :
    ∀ r a, requestAux (fun i => .reject (errs i)) a r
      = ⟨.error (errs (a + r)), r + 1, backoffs a r, List.replicate (r + 1) false⟩ := by
  intro r
  induction r with
  | zero => intro a; rfl
  | succ n ih =>
    intro a
    simp only [requestAux, runAttempt]
    rw [hapi a, hname a]
    simp only [Bool.or_self, Bool.false_or, if_false, Bool.false_eq_true, ite_false]
    rw [ih (a + 1), backoffs_succ]
    simp only [List.replicate_succ]
    have hn : (a + n).succ = a + (n + 1) := by omega
    rw [Nat.add_succ, Nat.succ_add, hn]

theorem sum_backoffs (N : Nat) :
    ((List.range N).map (fun i => 2 ^ i * 1000)).sum
      = 1000 * ((List.range N).map (fun i => 2 ^ i)).sum := by
  induction N with
  | zero => rfl
  | succ n ih =>
    rw [List.range_succ, List.map_append, List.map_append, List.sum_append, List.sum_append, ih]
    simp only [List.map_cons, List.map_nil, List.sum_cons, List.sum_nil]
    ring

/-- Claim C2: with maxRetries = N and a fetch primitive that fails every
attempt with a retryable transport error (not a CGateAPIError instance and
not an abort), the call makes exactly N + 1 strictly sequential attempts,
sleeps 2 ^ i seconds before retry i + 1, accumulating a total backoff of
1 + 2 + ... + 2 ^ (N - 1) seconds (here in milliseconds), and then
propagates the last error. -/
theorem c2_retry_count_and_backoff (N : Nat) (errs : Nat → JsError)
    (hapi : ∀ i, (errs i).isAPIError = false)
    (hname : ∀ i, (errs i).errorName ≠ "AbortError") :
    (request N (fun i => .reject (errs i))).attempts = N + 1 ∧
    (request N (fun i => .reject (errs i))).sleeps
      = (List.range N).map (fun i => 2 ^ i * 1000) ∧
    (request N (fun i => .reject (errs i))).sleeps.sum
      = 1000 * ((List.range N).map (fun i => 2 ^ i)).sum ∧
    (request N (fun i => .reject (errs i))).result = .error (errs N) := by
  have hname2 : ∀ i, ((errs i).errorName == "AbortError") = false := fun i =>
    beq_eq_false_iff_ne.mpr (hname i)
  unfold request
  rw [requestAux_reject_retryable errs hapi hname2 N 0]
  have hb : backoffs 0 N = (List.range N).map (fun i => 2 ^ i * 1000) := by
    unfold backoffs
    exact List.map_congr_left (fun i _ => by rw [Nat.zero_add])
  exact ⟨rfl, hb, by rw [hb, sum_backoffs], by rw [Nat.zero_add]⟩

/-- Witness for C2 at N = 2 with a constant network failure: three
attempts, sleeps of one and two seconds, total three seconds, and the
transport error propagated. -/
theorem c2_retry_count_and_backoff_witness :
    (request 2 (fun _ => FetchOutcome.reject (JsError.js "TypeError" "fetch failed"))).attempts
      = 2 + 1 ∧
    (request 2 (fun _ => FetchOutcome.reject (JsError.js "TypeError" "fetch failed"))).sleeps
      = (List.range 2).map (fun i => 2 ^ i * 1000) ∧
    (request 2 (fun _ => FetchOutcome.reject (JsError.js "TypeError" "fetch failed"))).sleeps.sum
      = 1000 * ((List.range 2).map (fun i => 2 ^ i)).sum ∧
    (request 2 (fun _ => FetchOutcome.reject (JsError.js "TypeError" "fetch failed"))).result
      = .error (.js "TypeError" "fetch failed") ∧
    (List.range 2).map (fun i => 2 ^ i * 1000) = [1000, 2000] := by
  have h := c2_retry_count_and_backoff 2 (fun _ => .js "TypeError" "fetch failed")
    (fun _ => rfl)
    (fun _ => by show ("TypeError" : String) ≠ "AbortError"; decide)
  exact ⟨h.1, h.2.1, h.2.2.1, h.2.2.2, by decide⟩

/-- Claim C3 counterexample: when the internal timeout fires, the fetch
promise rejects with a DOMException named AbortError; with maxRetries = 3
and every attempt timing out this way, the call makes a single attempt and
performs no backoff wait at all, instead of being retried up to the
configured limit as claimed. -/
theorem c3_timeout_retry_refuted :
    (request 3 (fun _ => FetchOutcome.reject
      (JsError.js "AbortError" "The operation was aborted"))).attempts = 1 ∧
    (request 3 (fun _ => FetchOutcome.reject
      (JsError.js "AbortError" "The operation was aborted"))).sleeps = [] :=
  ⟨rfl, rfl⟩

/-- Claim C3 amended: an attempt that fails because the internal timeout
fired rejects with an error named AbortError, which the retry loop treats
exactly like a caller cancellation: the error propagates immediately after
one attempt, with no backoff, regardless of maxRetries. -/
theorem c3_timeout_abort_no_retry (N : Nat) (e : JsError)
    (hname : e.errorName = "AbortError") :
    request N (fun _ => FetchOutcome.reject e) = ⟨.error e, 1, [], [false]⟩ := by
  cases N with
  | zero => rfl
  | succ n =>
    unfold request
    simp only [requestAux, runAttempt]
    rw [hname]
    simp

/-- Witness for the amended C3 at maxRetries = 2 with a timeout-shaped
abort error. -/
theorem c3_timeout_abort_no_retry_witness :
    request 2 (fun _ => FetchOutcome.reject (JsError.js "AbortError" "signal timed out"))
      = ⟨.error (.js "AbortError" "signal timed out"), 1, [], [false]⟩ :=
  c3_timeout_abort_no_retry 2 _ rfl

/-- Claim C6: when the first attempt resolves with a non-2xx response, the
CGateAPIError built by handleErrorResponse propagates after exactly one
attempt with no backoff wait, regardless of maxRetries (and the timer was
cleared, since fetch resolved). -/
theorem c6_api_error_single_attempt (N : Nat) (fetchO : Nat → FetchOutcome)
    (r : JsResponse) (h0 : fetchO 0 = .resolve r) (hok : r.ok = false) :
    request N fetchO
      = ⟨.error (handleErrorResponse r.status r.statusText r.jsonBody), 1, [], [true]⟩ ∧
    (handleErrorResponse r.status r.statusText r.jsonBody).isAPIError = true := by
  refine ⟨?_, handleErrorResponse_isAPIError _ _ _⟩
  cases N with
  | zero =>
    unfold request
    simp [requestAux, h0, runAttempt, hok]
  | succ n =>
    unfold request
    simp [requestAux, h0, runAttempt, hok, handleErrorResponse_isAPIError]

/-- Witness for C6 at maxRetries = 3 with a 429 response. -/
theorem c6_api_error_single_attempt_witness :
    request 3 (fun _ => FetchOutcome.resolve
        ⟨false, 429, "Too Many Requests", some (.obj [("error", .str "rate limited")])⟩)
      = ⟨.error (handleErrorResponse 429 "Too Many Requests"
          (some (.obj [("error", .str "rate limited")]))), 1, [], [true]⟩ ∧
    (handleErrorResponse 429 "Too Many Requests"
        (some (.obj [("error", .str "rate limited")]))).isAPIError = true :=
  c6_api_error_single_attempt 3
    (fun _ => FetchOutcome.resolve
      ⟨false, 429, "Too Many Requests", some (.obj [("error", .str "rate limited")])⟩)
    ⟨false, 429, "Too Many Requests", some (.obj [("error", .str "rate limited")])⟩
    rfl rfl

/-- Claim C7: when the first attempt is aborted through the caller's
cancellation signal, fetch rejects with an error named AbortError; the
call propagates that error (which is not a CGateAPIError, hence a
transport-kind failure) after exactly one attempt with no backoff,
regardless of maxRetries. -/
theorem c7_abort_single_attempt (N : Nat) (fetchO : Nat → FetchOutcome)
    (e : JsError) (h0 : fetchO 0 = .reject e) (hname : e.errorName = "AbortError") :
    request N fetchO = ⟨.error e, 1, [], [false]⟩ ∧ e.isAPIError = false := by
  have hapi : e.isAPIError = false := by
    cases e with
    | api m s t resp =>
      exact absurd hname (by show ¬("CGateAPIError" : String) = "AbortError"; decide)
    | js n m => rfl
  refine ⟨?_, hapi⟩
  cases N with
  | zero =>
    unfold request
    simp [requestAux, h0, runAttempt]
  | succ n =>
    unfold request
    simp only [requestAux, runAttempt, h0]
    rw [hname]
    simp

/-- Witness for C7 at maxRetries = 5 with a user-initiated abort. -/
theorem c7_abort_single_attempt_witness :
    request 5 (fun _ => FetchOutcome.reject (JsError.js "AbortError" "The user aborted a request"))
      = ⟨.error (.js "AbortError" "The user aborted a request"), 1, [], [false]⟩ ∧
    (JsError.js "AbortError" "The user aborted a request").isAPIError = false :=
  c7_abort_single_attempt 5
    (fun _ => FetchOutcome.reject (JsError.js "AbortError" "The user aborted a request"))
    (JsError.js "AbortError" "The user aborted a request") rfl rfl

/-- Claim C8 counterexample: when the fetch primitive rejects (here a
network failure with maxRetries = 0), the internal timeout timer is not
cleared for that attempt, because the clearTimeout call sits after the
awaited fetch with no finally block; the claim that the timer is cleared
regardless of outcome fails on this input. -/
theorem c8_timer_uncleared_on_reject :
    (request 0 (fun _ => FetchOutcome.reject
      (JsError.js "TypeError" "connection reset"))).timerCleared = [false] ∧
    (request 0 (fun _ => FetchOutcome.reject
      (JsError.js "TypeError" "connection reset"))).timerCleared ≠ [true] :=
  ⟨rfl, by decide⟩

/-- Claim C8 amended: the per-attempt timeout timer is cleared exactly
when the fetch promise resolves — both on success and on a non-2xx
response — but not when the fetch primitive rejects. -/
theorem c8_timer_cleared_iff_resolved (r : JsResponse) (e : JsError) :
    (runAttempt (.resolve r)).timerCleared = true ∧
    (runAttempt (.reject e)).timerCleared = false := by
  refine ⟨?_, rfl⟩
  rcases r with ⟨ok, s, st, b⟩
  cases ok <;> cases b <;> rfl

/-- Claim C9 counterexample: the body expression body ? JSON.stringify(body)
: undefined omits a supplied but falsy body value; with body = false the
fetch primitive receives no body instead of the serialization of false. -/
theorem c9_falsy_body_omitted :
    sentBody (fun _ => "false") (some (Json.bool false)) = none ∧
    sentBody (fun _ => "false") (some (Json.bool false))
      ≠ some ((fun (_ : Json) => "false") (Json.bool false)) :=
  ⟨rfl, by decide⟩

/-- Claim C9 amended: a supplied truthy body is sent as exactly its JSON
serialization; an absent body, and likewise a supplied falsy body value
(false, 0, the empty string, null), results in no request body at all. -/
theorem c9_body_serialization (stringify : Json → String) (j : Json) :
    (jsTruthy j = true → sentBody stringify (some j) = some (stringify j)) ∧
    (jsTruthy j = false → sentBody stringify (some j) = none) ∧
    sentBody stringify none = none := by
  refine ⟨?_, ?_, rfl⟩ <;> intro h <;> simp [sentBody, h]

/-- Witness for the amended C9 with a truthy numeric body and an absent
body. -/
theorem c9_body_serialization_witness :
    sentBody (fun _ => "42") (some (Json.num 42))
      = some ((fun (_ : Json) => "42") (Json.num 42)) ∧
    sentBody (fun _ => "42") (none : Option Json) = none :=
  ⟨(c9_body_serialization (fun _ => "42") (Json.num 42)).1 (by decide),
   (c9_body_serialization (fun _ => "42") (Json.num 42)).2.2⟩

/-- Claim C10: a constructed client replaces an explicit timeout of 0 (a
falsy value under the logical-or default) with the 60000 ms default, while
an explicit maxRetries of 0 is honored (the nullish default applies only
to an absent value, which falls back to 3). -/
theorem c10_constructor_defaults :
    effectiveTimeout ⟨"test-key", none, some 0, none⟩ = 60000 ∧
    effectiveTimeout ⟨"test-key", none, none, none⟩ = 60000 ∧
    effectiveTimeout ⟨"test-key", none, some 30000, none⟩ = 30000 ∧
    effectiveMaxRetries ⟨"test-key", none, none, some 0⟩ = 0 ∧
    effectiveMaxRetries ⟨"test-key", none, none, none⟩ = 3 := by
  decide

/-- Claim C5 counterexample: for a non-2xx response whose body is
shaped with an error object carrying an empty-string message, the source
falls back to the generic message (message || generic is falsy for the
empty string), while the claim requires the empty message itself. -/
theorem c5_empty_message_fallback :
    (handleErrorResponse 500 "Internal Server Error"
        (some (.obj [("error", .obj [("message", .str ""), ("type", .str "bad_request")])]))).apiMessage
      = some (.str "HTTP 500: Internal Server Error") ∧
    ("HTTP 500: Internal Server Error" : String) ≠ "" :=
  ⟨rfl, by decide⟩

/-- Claim C5 amended: for a non-2xx response, a string-valued error field
becomes the message verbatim; an object-valued error field contributes its
message when that message is a nonempty string, falling back to the
generic HTTP status: statusText message when the message field is absent
or empty, and always carries the object's type field as the error-type
tag; when body parsing fails the message is generic and no raw body is
carried. -/
theorem c5_error_message_classification (status : Nat) (statusText : String) :
    (∀ (fields : List (String × Json)) (s : String),
        getField (.obj fields) "error" = some (.str s) →
        handleErrorResponse status statusText (some (.obj fields))
          = .api (.str s) status none (some (.obj fields))) ∧
    (∀ (fields efields : List (String × Json)) (m : String),
        getField (.obj fields) "error" = some (.obj efields) →
        getField (.obj efields) "message" = some (.str m) →
        m ≠ "" →
        handleErrorResponse status statusText (some (.obj fields))
          = .api (.str m) status (getField (.obj efields) "type") (some (.obj fields))) ∧
    (∀ (fields efields : List (String × Json)),
        getField (.obj fields) "error" = some (.obj efields) →
        (getField (.obj efields) "message" = none ∨
          getField (.obj efields) "message" = some (.str "")) →
        handleErrorResponse status statusText (some (.obj fields))
          = .api (.str (genericMessage status statusText)) status
              (getField (.obj efields) "type") (some (.obj fields))) ∧
    handleErrorResponse status statusText none
      = .api (.str (genericMessage status statusText)) status none none := by
  refine ⟨?_, ?_, ?_, rfl⟩
  · intro fields s h
    simp [handleErrorResponse, isObjectType, h]
  · intro fields efields m h hm hne
    simp [handleErrorResponse, isObjectType, h, hm, jsTruthy, bne_iff_ne, hne]
  · intro fields efields h hm
    rcases hm with hm | hm <;>
      simp [handleErrorResponse, isObjectType, h, hm, jsTruthy]

/-- Claim C1 (code bug): evaluated at the client's own default base URL,
buildURL resolves the stripped path as a relative reference against a base
whose trailing slash was removed, so the WHATWG URL constructor replaces
the base path's last segment (v1 disappears) instead of joining base and
path; the spec-side join keeps the full base.  Defined query parameters
are appended once and undefined ones are dropped, as the last conjunct
shows on a base without a path, where the join itself happens to agree. -/
theorem c1_buildURL_drops_base_segment :
    buildURL (jsStr "https://api.cognipeer.com/api/client/v1") (jsStr "/embeddings") []
      = some (jsStr "https://api.cognipeer.com/api/client/embeddings") ∧
    specJoinURL (jsStr "https://api.cognipeer.com/api/client/v1") (jsStr "/embeddings") []
      = jsStr "https://api.cognipeer.com/api/client/v1/embeddings" ∧
    buildURL (jsStr "https://api.cognipeer.com/api/client/v1") (jsStr "/embeddings") []
      ≠ some (specJoinURL (jsStr "https://api.cognipeer.com/api/client/v1")
          (jsStr "/embeddings") []) ∧
    buildURL (jsStr "https://api.cognipeer.com") (jsStr "/embeddings")
        [(jsStr "limit", some (jsStr "10")), (jsStr "cursor", none)]
      = some (jsStr "https://api.cognipeer.com/embeddings?limit=10") :=
  ⟨by decide, by decide, by decide, by decide⟩

/-- Witness for the amended C5: an object error with message X and type Y
yields message X and type tag Y; a string error is used verbatim. -/
theorem c5_error_message_classification_witness :
    handleErrorResponse 404 "Not Found"
        (some (.obj [("error", .obj [("message", .str "X"), ("type", .str "Y")])]))
      = .api (.str "X") 404
          (getField (.obj [("message", .str "X"), ("type", .str "Y")]) "type")
          (some (.obj [("error", .obj [("message", .str "X"), ("type", .str "Y")])])) ∧
    handleErrorResponse 400 "Bad Request" (some (.obj [("error", .str "boom")]))
      = .api (.str "boom") 400 none (some (.obj [("error", .str "boom")])) :=
  ⟨(c5_error_message_classification 404 "Not Found").2.1 _ _ "X" rfl rfl (by decide),
   (c5_error_message_classification 400 "Bad Request").1 _ "boom" rfl⟩

theorem splitOnChar_ne_nil (c : Char) (s : Str) : splitOnChar c s ≠ [] := by
  cases s with
  | nil => simp [splitOnChar]
  | cons x xs =>
    unfold splitOnChar
    by_cases h : x = c
    · simp [h]
    · rw [if_neg h]
      cases splitOnChar c xs <;> simp

theorem splitOnChar_cons (c x : Char) (xs : Str) :
    splitOnChar c (x :: xs)
      = if x = c then [] :: splitOnChar c xs
        else (splitOnChar c xs).modifyHead (fun h => x :: h) := by
  by_cases hx : x = c
  · rw [if_pos hx]
    show (if x = c then _ else _) = _
    rw [if_pos hx]
  · rw [if_neg hx]
    show (if x = c then _ else _) = _
    rw [if_neg hx]
    rcases hs : splitOnChar c xs with _ | ⟨hd, tl⟩
    · exact absurd hs (splitOnChar_ne_nil c xs)
    · rfl

theorem splitOnChar_no_sep (c : Char) (l : Str) (h : c ∉ l) : splitOnChar c l = [l] := by
  induction l with
  | nil => rfl
  | cons x xs ih =>
    have hx : ¬ x = c := by
      intro hx
      subst hx
      exact h (List.mem_cons_self x xs)
    have hxs : c ∉ xs := fun hc => h (List.mem_cons_of_mem _ hc)
    rw [splitOnChar_cons, if_neg hx, ih hxs]
    rfl

theorem getLastD_irrel {α : Type} (l : List α) (a b : α) (h : l ≠ []) :
    l.getLastD a = l.getLastD b := by
  cases l with
  | nil => exact absurd rfl h
  | cons x xs => rw [List.getLastD_cons, List.getLastD_cons]

theorem splitOnChar_last_no_sep (c : Char) (s : Str) :
    c ∉ (splitOnChar c s).getLastD [] := by
  induction s with
  | nil => simp [splitOnChar]
  | cons x xs ih =>
    rw [splitOnChar_cons]
    by_cases hx : x = c
    · rw [if_pos hx, List.getLastD_cons]
      rcases hs : splitOnChar c xs with _ | ⟨hd, tl⟩
      · exact absurd hs (splitOnChar_ne_nil c xs)
      · rw [hs] at ih
        rw [List.getLastD_cons] at ih ⊢
        exact ih
    · rw [if_neg hx]
      rcases hs : splitOnChar c xs with _ | ⟨hd, tl⟩
      · exact absurd hs (splitOnChar_ne_nil c xs)
      · rw [hs] at ih
        rw [List.getLastD_cons] at ih
        cases tl with
        | nil =>
          show c ∉ [x :: hd].getLastD []
          rw [List.getLastD_cons]
          intro hmem
          rcases List.mem_cons.mp hmem with hmem | hmem
          · exact hx hmem.symm
          · exact ih hmem
        | cons y ys =>
          show c ∉ ((x :: hd) :: y :: ys).getLastD []
          rw [List.getLastD_cons, getLastD_irrel _ _ hd (by simp)]
          exact ih

theorem splitOnChar_append (c : Char) (a b : Str) :
    splitOnChar c (a ++ b)
      = (splitOnChar c a).dropLast
        ++ (splitOnChar c b).modifyHead
            (fun h => (splitOnChar c a).getLastD [] ++ h) := by
  induction a with
  | nil =>
    rcases hb : splitOnChar c b with _ | ⟨hd, tl⟩
    · exact absurd hb (splitOnChar_ne_nil c b)
    · simp [splitOnChar, hb, List.modifyHead]
  | cons x xs ih =>
    rw [List.cons_append, splitOnChar_cons c x (xs ++ b), splitOnChar_cons c x xs]
    by_cases hx : x = c
    · rw [if_pos hx, if_pos hx, ih]
      rcases hs : splitOnChar c xs with _ | ⟨hd, tl⟩
      · exact absurd hs (splitOnChar_ne_nil c xs)
      · simp only [List.getLastD_cons, List.dropLast_cons₂, List.cons_append]
    · rw [if_neg hx, if_neg hx, ih]
      rcases hs : splitOnChar c xs with _ | ⟨hd, tl⟩
      · exact absurd hs (splitOnChar_ne_nil c xs)
      · rcases hb : splitOnChar c b with _ | ⟨hb1, tb⟩
        · exact absurd hb (splitOnChar_ne_nil c b)
        · cases tl with
          | nil => simp [List.modifyHead, List.getLastD_cons]
          | cons y ys => simp [List.modifyHead, List.getLastD_cons]

theorem dropLast_append_ne_nil {α : Type} (xs ys : List α) (h : ys ≠ []) :
    (xs ++ ys).dropLast = xs ++ ys.dropLast := by
  induction xs with
  | nil => rfl
  | cons x xs ih =>
    rw [List.cons_append, List.cons_append, ← ih]
    rcases h2 : xs ++ ys with _ | ⟨z, zs⟩
    · rcases List.append_eq_nil.mp h2 with ⟨-, h3⟩
      exact absurd h3 h
    · rfl

theorem modifyHead_ne_nil {α : Type} (f : α → α) (l : List α) (h : l ≠ []) :
    l.modifyHead f ≠ [] := by
  cases l with
  | nil => exact absurd rfl h
  | cons x xs => simp [List.modifyHead]

theorem completeLines_split (a t : Str) :
    completeLines (a ++ t)
      = (splitOnChar '\n' a).dropLast
        ++ completeLines ((splitOnChar '\n' a).getLastD [] ++ t) := by
  have hlast := splitOnChar_last_no_sep '\n' a
  unfold completeLines
  rw [splitOnChar_append '\n' a t,
      splitOnChar_append '\n' ((splitOnChar '\n' a).getLastD []) t,
      splitOnChar_no_sep '\n' _ hlast]
  rw [List.dropLast_single, List.nil_append, List.getLastD_cons]
  exact dropLast_append_ne_nil _ _
    (modifyHead_ne_nil _ _ (splitOnChar_ne_nil '\n' t))

theorem processLine_eq {J : Type} (parse : Str → Option J) (line : Str) :
    processLine parse line
      = match ssePayload line with
        | none => .skip
        | some p =>
          if p == sseDoneLit then .done
          else match parse p with
            | some j => .yield j
            | none => .skip := by
  unfold processLine ssePayload
  by_cases h : sseDataTag.isPrefixOf (trimStr line) = true
  · simp [h]
  · simp [h]

theorem processLines_append {J : Type} (parse : Str → Option J) (xs ys : List Str) :
    processLines parse (xs ++ ys)
      = if (processLines parse xs).2
        then processLines parse xs
        else ((processLines parse xs).1 ++ (processLines parse ys).1,
              (processLines parse ys).2) := by
  induction xs with
  | nil => simp [processLines]
  | cons l ls ih =>
    rw [List.cons_append]
    simp only [processLines]
    cases hp : processLine parse l with
    | done => simp
    | yield j =>
      rw [ih]
      by_cases hd : (processLines parse ls).2 = true <;> simp [hd]
    | skip =>
      rw [ih]

theorem processLines_spec {J : Type} (parse : Str → Option J) (ls : List Str) :
    (processLines parse ls).1
      = ((ls.filterMap ssePayload).takeWhile (fun p => p != sseDoneLit)).filterMap parse := by
  induction ls with
  | nil => rfl
  | cons l ls ih =>
    simp only [processLines, List.filterMap_cons]
    rw [processLine_eq parse l]
    cases hp : ssePayload l with
    | none => simpa using ih
    | some p =>
      by_cases hd : (p == sseDoneLit) = true
      · simp [hd, bne]
      · cases hpp : parse p with
        | some j => simp [hd, hpp, ih, bne]
        | none => simp [hd, hpp, ih, bne]

theorem streamAux_yields {J : Type} (parse : Str → Option J) (chunks : List Str) :
    ∀ buffer : Str, Char.ofNat 10 ∉ buffer →
      (streamAux parse chunks buffer).yields
        = (processLines parse (completeLines (buffer ++ chunks.flatten))).1 := by
  induction chunks with
  | nil =>
    intro buffer hb
    rw [List.flatten_nil, List.append_nil]
    unfold completeLines
    rw [splitOnChar_no_sep _ buffer hb, List.dropLast_single]
    rfl
  | cons c rest ih =>
    intro buffer hb
    rw [List.flatten_cons, ← List.append_assoc,
        completeLines_split (buffer ++ c) rest.flatten,
        processLines_append]
    by_cases hdone :
        (processLines parse ((splitOnChar '\n' (buffer ++ c)).dropLast)).2 = true
    · simp [streamAux, completeLines, hdone]
    · simp only [streamAux, completeLines]
      rw [ih _ (splitOnChar_last_no_sep '\n' (buffer ++ c))]
      simp [completeLines, hdone]

theorem streamAux_extend {J : Type} (parse : Str → Option J) (chunks extra : List Str) :
    ∀ buffer : Str, (streamAux parse chunks buffer).sawDone = true →
      streamAux parse (chunks ++ extra) buffer = streamAux parse chunks buffer := by
  induction chunks with
  | nil =>
    intro buffer h
    exact absurd h (by simp [streamAux])
  | cons c rest ih =>
    intro buffer h
    rw [List.cons_append]
    by_cases hdone :
        (processLines parse ((splitOnChar '\n' (buffer ++ c)).dropLast)).2 = true
    · simp [streamAux, hdone]
    · simp only [streamAux, hdone] at h ⊢
      simp only [Bool.false_eq_true, if_false] at h ⊢
      rw [ih _ h]

/-- Claim C4: over any chunking of the response body text, the values
yielded by the stream loop are exactly the successful parses, in order, of
the data payloads of the complete trimmed lines, up to but not including
the first sentinel payload (lines without the data marker and payloads
that fail to parse are skipped without terminating the stream); and once
the sentinel has been seen, reading further chunks is impossible to
observe: the whole trace, including the count of reads consumed, is
unchanged by any extension of the body. -/
theorem c4_stream_decoding (J : Type) (parse : Str → Option J)
    (chunks extra : List Str) :
    (stream parse chunks).yields = specStreamYields parse chunks ∧
    ((stream parse chunks).sawDone = true →
      stream parse (chunks ++ extra) = stream parse chunks) := by
  constructor
  · unfold stream specStreamYields
    rw [streamAux_yields parse chunks [] (by simp)]
    rw [List.nil_append]
    exact processLines_spec parse _
  · intro h
    exact streamAux_extend parse chunks extra [] h

/-- Witness for C4: a body whose lines are split across chunk boundaries
yields exactly the values before the sentinel, and appending one more
chunk after the sentinel changes nothing. -/
theorem c4_stream_decoding_witness :
    (stream (fun s => if s == jsStr "1" then some 1 else none)
        [jsStr "data: 1\nda", jsStr "ta: 1\ndata: [DONE]\n", jsStr "data: 1\n"]).yields
      = specStreamYields (fun s => if s == jsStr "1" then some 1 else none)
          [jsStr "data: 1\nda", jsStr "ta: 1\ndata: [DONE]\n", jsStr "data: 1\n"] ∧
    stream (fun s => if s == jsStr "1" then some 1 else none)
        ([jsStr "data: 1\nda", jsStr "ta: 1\ndata: [DONE]\n", jsStr "data: 1\n"]
          ++ [jsStr "data: 1\n"])
      = stream (fun s => if s == jsStr "1" then some 1 else none)
          [jsStr "data: 1\nda", jsStr "ta: 1\ndata: [DONE]\n", jsStr "data: 1\n"] := by
  have h := c4_stream_decoding Nat (fun s => if s == jsStr "1" then some 1 else none)
    [jsStr "data: 1\nda", jsStr "ta: 1\ndata: [DONE]\n", jsStr "data: 1\n"]
    [jsStr "data: 1\n"]
  exact ⟨h.1, h.2 (by decide)⟩

end CGate
